import Mathlib

/-
Verification development for the r-scheme interpreter
(`src/object.rs`, `src/lexer.rs`, `src/parser.rs`, `src/env.rs`, `src/eval.rs`).

The Rust sources are shallowly embedded:
- `i64` values are `Int` with explicit wrapping modulo 2^64 where the source
  performs unchecked arithmetic (release semantics), and an explicit range
  check where the source uses `i64::checked_mul`;
- `f64` is Lean `Float`; its arithmetic is never evaluated by proofs, only
  the constructor-level behaviour of the source is verified;
- fallible evaluation returns `Except`; a Rust `panic!` (division by zero,
  division overflow, unreachable arms) is modelled as a distinguished
  `EvalErr.panic` outcome, separate from a returned `Err` (`EvalErr.err`);
- the interpreter's `Rc<RefCell<Env>>` chain is modelled as an explicit
  stack of scope frames threaded through evaluation: `Env::set` only ever
  writes into the current (top) frame, so the caller's chain is exactly the
  tail of the callee's stack;
- potentially divergent recursion (`eval_obj`) takes an explicit fuel
  argument counting recursion depth; `EvalErr.fuel` marks exhaustion.
-/

namespace RScheme

/- 64-bit signed integer model -/

def i64min : Int := -(2 ^ 63)

def i64max : Int := 2 ^ 63 - 1

/-- Two's-complement wrap-around of an exact integer into the `i64` range,
the release-mode semantics of unchecked `i64` addition and subtraction. -/
def wrap64 (n : Int) : Int := (n + 2 ^ 63) % 2 ^ 64 - 2 ^ 63

/- Runtime value / parse-tree node, from `enum Object` in `src/object.rs`.
The aliases exist only because the constructor names shadow the prelude
types inside the inductive declaration itself. -/

abbrev F := Float

abbrev B := Bool

abbrev S := String

inductive Object where
  | Integer (n : Int)
  | Float (x : F)
  | Bool (b : B)
  | String (s : S)
  | Symbol (s : S)
  | Lambda (params : List S) (body : List Object)
  | List (l : List Object)

def Object.isSymbol : Object → B
  | .Symbol _ => true
  | _ => false

/- Textual rendering, from `impl fmt::Display for Object` in `src/object.rs`.
`paramsStr` is the `for p in params { write!(f, "{} ", p)?; }` loop;
`bodyStr` is the corresponding loop over the lambda body;
`elemsStr` is the indexed loop of the `List` arm (a space before every
element except the first).  Note the `List` arm of the source writes the
opening parenthesis but never a closing one, and the `Lambda` arm renders
a `λ` form; both are preserved here. -/

def paramsStr : List String → String
  | [] => ""
  | p :: ps => p ++ " " ++ paramsStr ps

mutual

def fmt : Object → String
  | .Integer n => toString n
  | .Float x => toString x
  | .Bool b => toString b
  | .String s => "\"" ++ s ++ "\""
  | .Symbol s => s
  | .Lambda params body => "λ " ++ paramsStr params ++ ". " ++ bodyStr body
  | .List l => "(" ++ elemsStr l true

def bodyStr : List Object → String
  | [] => ""
  | x :: xs => fmt x ++ " " ++ bodyStr xs

def elemsStr : List Object → Bool → String
  | [], _ => ""
  | x :: xs, first => (if first then "" else " ") ++ fmt x ++ elemsStr xs false

end

/- Specification-side rendering helpers (used only to state properties of
`fmt`, never by the embedding itself).  `spaceJoin` appends a space after
every element; `spaceSep` separates consecutive elements by single
spaces. -/

def spaceJoin : List String → String
  | [] => ""
  | s :: rest => s ++ " " ++ spaceJoin rest

def spaceSep : List String → String
  | [] => ""
  | [s] => s
  | s :: rest => s ++ " " ++ spaceSep rest

/- Tokens, from `enum Token` in `src/lexer.rs`. -/

inductive Token where
  | Integer (n : Int)
  | Float (x : Float)
  | String (s : String)
  | Symbol (s : String)
  | LParen
  | RParen
  | LexerError (s : String)

/- Lexer state, from `struct TokenIterator` in `src/lexer.rs`: the
remaining characters of the input, the terminal-error flag, the column
counter `c_count` and the line counter `line_count`. -/

structure LexState where
  chars : List Char
  is_error : Bool
  c_count : Nat
  line_count : Nat

/-- `tokenize` from `src/lexer.rs`: both counters start at 1. -/
def tokenize (s : String) : LexState :=
  ⟨s.data, false, 1, 1⟩

/-- The leading whitespace-skipping loop of `TokenIterator::next`.  Returns
the remaining characters together with the updated line and column
counters.  The `c == '\n'` branch of the source sits under
`!c.is_whitespace()` and is therefore unreachable (a newline *is*
whitespace); it is reproduced faithfully. -/
def skipWs : List Char → Nat → Nat → List Char × Nat × Nat
  | [], line, col => ([], line, col)
  | c :: rest, line, col =>
    if !c.isWhitespace then
      if c = '\n' then (c :: rest, line + 1, 0) else (c :: rest, line, col)
    else
      skipWs rest line (col + 1)

/-- Model of Rust `str::parse::<i64>`: an optional sign, one or more
decimal digits, and an in-range check against the 64-bit bounds. -/
def parseI64 (s : String) : Option Int :=
  match s.data with
  | [] => none
  | c :: rest =>
    let neg : Bool := c = '-'
    let digits : List Char := if c = '-' ∨ c = '+' then rest else c :: rest
    if digits = [] then none
    else if digits.all (·.isDigit) then
      let n : Nat := digits.foldl (fun acc d => acc * 10 + (d.toNat - '0'.toNat)) 0
      let v : Int := if neg then -(n : Int) else (n : Int)
      if i64min ≤ v ∧ v ≤ i64max then some v else none
    else none

/- Model of Rust `str::parse::<f64>`: an optional sign followed by either a
case-insensitive `inf`/`infinity`/`nan`, or a decimal mantissa (digits
before and/or after a single dot, at least one digit overall) with an
optional exponent part.  The numeric value is assembled with
`Float.ofScientific`.  No claim depends on the constructed value, only on
which strings are accepted. -/

def splitDigits : List Char → List Char × List Char
  | [] => ([], [])
  | c :: rest =>
    if c.isDigit then
      let (ds, tl) := splitDigits rest
      (c :: ds, tl)
    else ([], c :: rest)

def digitsToNat (ds : List Char) : Nat :=
  ds.foldl (fun acc d => acc * 10 + (d.toNat - '0'.toNat)) 0

def parseF64 (s : String) : Option Float :=
  match s.data with
  | [] => none
  | c0 :: rest0 =>
    let neg : Bool := c0 = '-'
    let cs : List Char := if c0 = '-' ∨ c0 = '+' then rest0 else c0 :: rest0
    let low : List Char := cs.map Char.toLower
    let finish : Float → Option Float := fun x => some (if neg then -x else x)
    if low = "inf".data ∨ low = "infinity".data then finish ((1.0 : Float) / 0.0)
    else if low = "nan".data then finish ((0.0 : Float) / 0.0)
    else
      let (intDigits, cs1) := splitDigits cs
      let (fracDigits, cs2) :=
        match cs1 with
        | '.' :: tl => splitDigits tl
        | _ => ([], cs1)
      if intDigits = [] ∧ fracDigits = [] then none
      else
        let mantissa : Nat := digitsToNat (intDigits ++ fracDigits)
        let mkVal : Int → Option Float := fun e10 =>
          let e := e10 - (fracDigits.length : Int)
          finish (if e < 0 then Float.ofScientific mantissa true e.natAbs
                  else Float.ofScientific mantissa false e.natAbs)
        match cs2 with
        | [] => mkVal 0
        | e :: tl =>
          if e = 'e' ∨ e = 'E' then
            let (eneg, tl') :=
              match tl with
              | '-' :: tl' => (true, tl')
              | '+' :: tl' => (false, tl')
              | _ => (false, tl)
            let (eds, tl'') := splitDigits tl'
            if eds = [] ∨ tl'' ≠ [] then none
            else mkVal (if eneg then -(digitsToNat eds : Int) else (digitsToNat eds : Int))
          else none

/-- Classification of a completed raw token, from the tail of
`TokenIterator::next`: parens, then `i64`, then `f64`, else a symbol.  An
empty token means end of stream. -/
def parseToken (tok : String) : Option Token :=
  if tok = "" then none
  else if tok = "(" then some .LParen
  else if tok = ")" then some .RParen
  else
    match parseI64 tok with
    | some i => some (.Integer i)
    | none =>
      match parseF64 tok with
      | some f => some (.Float f)
      | none => some (.Symbol tok)

/-- The `in_string` branch of the token-reading loop of
`TokenIterator::next`: consume characters of a string literal up to the
closing quote (newlines increment the line counter), then require the
following character, if any, to be whitespace or a parenthesis.  Reaching
end of input inside the literal yields the EOF lexer error. -/
def readStr : List Char → Nat → Nat → String → Option Token × LexState
  | [], line, col, _ =>
    (some (.LexerError ("Unexpected EOF (line " ++ toString line ++ ", column " ++ toString col ++ ")")),
     ⟨[], false, col, line⟩)
  | c :: rest, line, col, tok =>
    let line' := if c = '\n' then line + 1 else line
    if c = '"' then
      let col' := col + 1
      match rest with
      | [] => (some (.String tok), ⟨[], false, col', line'⟩)
      | c2 :: _ =>
        if !c2.isWhitespace ∧ c2 ≠ '(' ∧ c2 ≠ ')' then
          (some (.LexerError ("Unexpected character " ++ toString c2 ++ " (line " ++ toString line' ++ ", column " ++ toString col' ++ ")")),
           ⟨rest, true, col', line'⟩)
        else (some (.String tok), ⟨rest, false, col', line'⟩)
    else readStr rest line' (col + 1) (tok.push c)

/-- The normal-mode token-reading loop of `TokenIterator::next`.  A paren
is consumed (without touching `c_count`) only when no token text has been
accumulated; a quote after accumulated token text is the terminal
"Unexpected character" lexer error; a quote with no accumulated text
switches to string mode (`readStr`). -/
def readTok : List Char → Nat → Nat → String → Option Token × LexState
  | [], line, col, tok => (parseToken tok, ⟨[], false, col, line⟩)
  | c :: rest, line, col, tok =>
    if c.isWhitespace then (parseToken tok, ⟨c :: rest, false, col, line⟩)
    else if c = '(' ∨ c = ')' then
      if tok = "" then (parseToken (tok.push c), ⟨rest, false, col, line⟩)
      else (parseToken tok, ⟨c :: rest, false, col, line⟩)
    else if c = '"' then
      if tok = "" then readStr rest line (col + 1) ""
      else
        (some (.LexerError ("Unexpected character \" (line " ++ toString line ++ ", column " ++ toString col ++ ")")),
         ⟨c :: rest, true, col, line⟩)
    else readTok rest line (col + 1) (tok.push c)

/-- `TokenIterator::next` from `src/lexer.rs`: nothing once the error flag
is set, otherwise skip whitespace and read one token. -/
def nextTok (s : LexState) : Option Token × LexState :=
  if s.is_error then (none, s)
  else
    let (cs, line, col) := skipWs s.chars s.line_count s.c_count
    readTok cs line col ""

/-- Iterated calls of the token stream: `iterateNext k s` is the result of
the `(k+1)`-th call to `next` starting from state `s`. -/
def iterateNext : Nat → LexState → Option Token × LexState
  | 0, s => nextTok s
  | k + 1, s => iterateNext k (nextTok s).2

/-- Collect the tokens produced by the stream (with fuel). -/
def tokensN : Nat → LexState → List Token
  | 0, _ => []
  | f + 1, s =>
    match nextTok s with
    | (none, _) => []
    | (some t, s') => t :: tokensN f s'

/- Rust `{:?}` (derived `Debug`) rendering of `Option<Token>`, used by the
parser's "Excepted Left Paren" message.  String contents are rendered
plainly between quotes (the derived `Debug` additionally escapes special
characters; no claim depends on that corner). -/

def tokenDebug : Token → String
  | .Integer n => "Integer(" ++ toString n ++ ")"
  | .Float x => "Float(" ++ toString x ++ ")"
  | .String s => "String(\"" ++ s ++ "\")"
  | .Symbol s => "Symbol(\"" ++ s ++ "\")"
  | .LParen => "LParen"
  | .RParen => "RParen"
  | .LexerError s => "LexerError(\"" ++ s ++ "\")"

def optionTokenDebug : Option Token → String
  | none => "None"
  | some t => "Some(" ++ tokenDebug t ++ ")"

/- Parser, from `src/parser.rs`.  `ParseError::new` keeps the raw message;
`Display` prepends "Parse error: ". -/

structure ParseError where
  err : String

def ParseError.display (e : ParseError) : S :=
  "Parse error: " ++ e.err

/-- `parse_inner_list` from `src/parser.rs`, with an explicit fuel bound on
the number of loop iterations.  Each iteration consumes at least one input
character, so any fuel above the input length is never exhausted; the
callers below supply such fuel.  Atom tokens are appended to the list
being built, `(` recurses, `)` closes the current list, a lexer error
token becomes a parse error, and running out of tokens is the unexpected
EOF parse error. -/
def parseInner : Nat → LexState → Except ParseError (List Object × LexState)
  | 0, _ => .error ⟨"parser fuel exhausted"⟩
  | f + 1, s =>
    match nextTok s with
    | (none, _) => .error ⟨"Encountered an unexpected EOF !"⟩
    | (some t, s') =>
      match t with
      | .Integer n =>
        match parseInner f s' with
        | .ok (rest, s'') => .ok (.Integer n :: rest, s'')
        | .error e => .error e
      | .Float x =>
        match parseInner f s' with
        | .ok (rest, s'') => .ok (.Float x :: rest, s'')
        | .error e => .error e
      | .String str =>
        match parseInner f s' with
        | .ok (rest, s'') => .ok (.String str :: rest, s'')
        | .error e => .error e
      | .Symbol sym =>
        match parseInner f s' with
        | .ok (rest, s'') => .ok (.Symbol sym :: rest, s'')
        | .error e => .error e
      | .LParen =>
        match parseInner f s' with
        | .ok (sub, s2) =>
          match parseInner f s2 with
          | .ok (rest, s3) => .ok (.List sub :: rest, s3)
          | .error e => .error e
        | .error e => .error e
      | .RParen => .ok ([], s')
      | .LexerError e => .error ⟨e⟩

/-- `parse`/`parse_list` from `src/parser.rs`: the very first token must be
`(`, else the parse error names the token found (in `{:?}` form); then the
inner list is parsed. -/
def parse (s : String) : Except ParseError Object :=
  match nextTok (tokenize s) with
  | (some .LParen, s') =>
    match parseInner (s.length + 1) s' with
    | .ok (l, _) => .ok (.List l)
    | .error e => .error e
  | (t, _) => .error ⟨"Excepted Left Paren, found " ++ optionTokenDebug t⟩

/- Environment, from `src/env.rs`.  A `Frame` is one `Env` node's `vars`
map (`HashMap` insertion is modelled by consing, which shadows any older
binding of the same name for lookup, exactly like `insert`).  An `Env`
value is the chain of scopes from the current node to the global root:
`Env::extend` pushes a fresh frame, the parent link is the tail. -/

abbrev Frame := List (String × Object)

abbrev Env := List Frame

def lookupFrame : Frame → String → Option Object
  | [], _ => none
  | (k, v) :: rest, name => if k = name then some v else lookupFrame rest name

/-- `Env::get`: look in the current scope's map, else recurse into the
parent chain. -/
def Env.get : Env → String → Option Object
  | [], _ => none
  | f :: rest, name =>
    match lookupFrame f name with
    | some v => some v
    | none => Env.get rest name

/-- `Env::set`: insert or overwrite in the *current* scope only. -/
def Env.set : Env → String → Object → Env
  | [], _, _ => []
  | f :: rest, name, v => ((name, v) :: f) :: rest

/- Evaluator, from `src/eval.rs`.  Outcomes distinguish a returned
`Err(String)` (`err`), a process panic (`panic`, for the unguarded integer
division and the `unreachable!` arm), and fuel exhaustion of the model
(`fuel`, standing for recursion the Rust program would keep running). -/

inductive EvalErr where
  | err (msg : String)
  | panic (msg : String)
  | fuel

/-- `eval_symbol`: environment lookup, `Unbound symbol <name>` on miss. -/
def evalSymbol (s : String) (env : Env) : Except EvalErr (Object × Env) :=
  match Env.get env s with
  | none => .error (.err ("Unbound symbol " ++ s))
  | some v => .ok (v, env)

/-- The `list.into_iter().map(|o| eval_obj(o, env)).collect()` of
`eval_list`: evaluate every element left to right, threading the
environment, aborting on the first error. -/
def evalSeqF (ev : Object → Env → Except EvalErr (Object × Env)) :
    List Object → Env → Except EvalErr (List Object × Env)
  | [], env => .ok ([], env)
  | x :: xs, env =>
    match ev x env with
    | .error e => .error e
    | .ok (v, env') =>
      match evalSeqF ev xs env' with
      | .error e => .error e
      | .ok (vs, env'') => .ok (v :: vs, env'')

/-- The operator dispatch of `binop` on the two already-evaluated operands.
Unchecked `i64` `+`/`-` wrap (release semantics, `wrap64`); `*` models
`i64::checked_mul`; integer `/` panics on a zero divisor or on
`i64::MIN / -1` and otherwise truncates toward zero (`Int.tdiv`); any
`Float` operand switches to `f64` arithmetic with `Float.ofInt` standing
for Rust's `as f64`; non-numeric operands produce the error naming the
operator and both operand renderings.  The final arm is `unreachable!`. -/
def applyOp (operator : String) (left right : Object) : Except EvalErr Object :=
  let nonNumeric : Except EvalErr Object :=
    .error (.err ("Unable to apply binary operation on non-numeric values: ("
      ++ operator ++ " " ++ fmt left ++ " " ++ fmt right ++ ")"))
  match operator with
  | "+" =>
    match left, right with
    | .Integer l, .Integer r => .ok (.Integer (wrap64 (l + r)))
    | .Integer l, .Float r => .ok (.Float (Float.ofInt l + r))
    | .Float l, .Integer r => .ok (.Float (l + Float.ofInt r))
    | .Float l, .Float r => .ok (.Float (l + r))
    | _, _ => nonNumeric
  | "-" =>
    match left, right with
    | .Integer l, .Integer r => .ok (.Integer (wrap64 (l - r)))
    | .Integer l, .Float r => .ok (.Float (Float.ofInt l - r))
    | .Float l, .Integer r => .ok (.Float (l - Float.ofInt r))
    | .Float l, .Float r => .ok (.Float (l - r))
    | _, _ => nonNumeric
  | "*" =>
    match left, right with
    | .Integer l, .Integer r =>
      if i64min ≤ l * r ∧ l * r ≤ i64max then .ok (.Integer (l * r))
      else .error (.err "Integer overflow")
    | .Integer l, .Float r => .ok (.Float (Float.ofInt l * r))
    | .Float l, .Integer r => .ok (.Float (l * Float.ofInt r))
    | .Float l, .Float r => .ok (.Float (l * r))
    | _, _ => nonNumeric
  | "/" =>
    match left, right with
    | .Integer l, .Integer r =>
      if r = 0 then .error (.panic "attempt to divide by zero")
      else if l = i64min ∧ r = -1 then .error (.panic "attempt to divide with overflow")
      else .ok (.Integer (Int.tdiv l r))
    | .Integer l, .Float r => .ok (.Float (Float.ofInt l / r))
    | .Float l, .Integer r => .ok (.Float (l / Float.ofInt r))
    | .Float l, .Float r => .ok (.Float (l / r))
    | _, _ => nonNumeric
  | "<" =>
    match left, right with
    | .Integer l, .Integer r => .ok (.Bool (decide (l < r)))
    | .Integer l, .Float r => .ok (.Bool (decide (Float.ofInt l < r)))
    | .Float l, .Integer r => .ok (.Bool (decide (l < Float.ofInt r)))
    | .Float l, .Float r => .ok (.Bool (decide (l < r)))
    | _, _ => nonNumeric
  | ">" =>
    match left, right with
    | .Integer l, .Integer r => .ok (.Bool (decide (l > r)))
    | .Integer l, .Float r => .ok (.Bool (decide (Float.ofInt l > r)))
    | .Float l, .Integer r => .ok (.Bool (decide (l > Float.ofInt r)))
    | .Float l, .Float r => .ok (.Bool (decide (l > r)))
    | _, _ => nonNumeric
  | "=" =>
    match left, right with
    | .Integer l, .Integer r => .ok (.Bool (decide (l = r)))
    | .Integer l, .Float r => .ok (.Bool (Float.ofInt l == r))
    | .Float l, .Integer r => .ok (.Bool (l == Float.ofInt r))
    | .Float l, .Float r => .ok (.Bool (l == r))
    | _, _ => nonNumeric
  | "!=" =>
    match left, right with
    | .Integer l, .Integer r => .ok (.Bool (decide (l ≠ r)))
    | .Integer l, .Float r => .ok (.Bool (!(Float.ofInt l == r)))
    | .Float l, .Integer r => .ok (.Bool (!(l == Float.ofInt r)))
    | .Float l, .Float r => .ok (.Bool (!(l == r)))
    | _, _ => nonNumeric
  | _ => .error (.panic "internal error: entered unreachable code: Unknown binary operator !")

/-- `binop` from `src/eval.rs`: evaluate the left operand, then the right
operand, in the current environment, then apply the operator. -/
def binopF (ev : Object → Env → Except EvalErr (Object × Env))
    (operator : String) (left right : Object) (env : Env) :
    Except EvalErr (Object × Env) :=
  match ev left env with
  | .error e => .error e
  | .ok (l, env1) =>
    match ev right env1 with
    | .error e => .error e
    | .ok (r, env2) =>
      match applyOp operator l r with
      | .error e => .error e
      | .ok v => .ok (v, env2)

/-- `eval_condition`: everything except `Bool(false)` counts as true. -/
def evalConditionF (ev : Object → Env → Except EvalErr (Object × Env))
    (cond : Object) (env : Env) : Except EvalErr (B × Env) :=
  match ev cond env with
  | .error e => .error e
  | .ok (.Bool false, env') => .ok (false, env')
  | .ok (_, env') => .ok (true, env')

/-- `eval_if`: two-armed `if` returns `Bool(false)` on a false condition. -/
def evalIfF (ev : Object → Env → Except EvalErr (Object × Env))
    (condition ifClause : Object) (env : Env) : Except EvalErr (Object × Env) :=
  match evalConditionF ev condition env with
  | .error e => .error e
  | .ok (true, env') => ev ifClause env'
  | .ok (false, env') => .ok (.Bool false, env')

/-- `eval_if_else`. -/
def evalIfElseF (ev : Object → Env → Except EvalErr (Object × Env))
    (condition ifClause elseClause : Object) (env : Env) :
    Except EvalErr (Object × Env) :=
  match evalConditionF ev condition env with
  | .error e => .error e
  | .ok (true, env') => ev ifClause env'
  | .ok (false, env') => ev elseClause env'

/-- `define` from `src/eval.rs`: evaluate the value in the current
environment, bind it in the current scope, and return `Bool(true)`. -/
def defineF (ev : Object → Env → Except EvalErr (Object × Env))
    (symbol : String) (value : Object) (env : Env) : Except EvalErr (Object × Env) :=
  match ev value env with
  | .error e => .error e
  | .ok (v, env') => .ok (.Bool true, Env.set env' symbol v)

/-- The parameter-validation loop of the `lambda` arm of `eval_builtin`:
every parameter must be a symbol, else the first offender is reported. -/
def collectParams : List Object → Except EvalErr (List String)
  | [] => .ok []
  | .Symbol s :: rest =>
    match collectParams rest with
    | .ok ps => .ok (s :: ps)
    | .error e => .error e
  | p :: _ => .error (.err ("Invalid lambda parameter: " ++ fmt p))

/-- The argument-binding loop of `eval_function_call`: evaluate each
argument expression, in order, in the *caller's* environment (threaded),
inserting the binding into the new activation frame.  The
params-without-args case is the (arity-check-guarded, hence unreachable)
out-of-bounds indexing `list[i + 1]` of the source. -/
def evalArgsF (ev : Object → Env → Except EvalErr (Object × Env)) :
    List String → List Object → Frame → Env → Except EvalErr (Frame × Env)
  | [], _, frame, env => .ok (frame, env)
  | _ :: _, [], _, _ => .error (.panic "index out of bounds")
  | p :: ps, a :: rest, frame, env =>
    match ev a env with
    | .error e => .error e
    | .ok (v, env') => evalArgsF ev ps rest ((p, v) :: frame) env'

/-- `eval_function_call` from `src/eval.rs`: look the name up; it must be a
`Lambda`; the argument count must match the parameter count; arguments are
evaluated in the caller's environment, a fresh child scope is pushed with
the parameter bindings, the stored body is evaluated as a `List` against
that scope, and the activation frame is dropped from the returned
environment (the caller keeps its own chain, including any mutations made
to it while the arguments were evaluated). -/
def evalFunctionCallF (ev : Object → Env → Except EvalErr (Object × Env))
    (name : String) (list : List Object) (env : Env) : Except EvalErr (Object × Env) :=
  match list with
  | [] => .error (.err "Empty list")
  | _ :: args =>
    match Env.get env name with
    | none => .error (.err ("Unbound symbol: " ++ name))
    | some (.Lambda params body) =>
      if params.length = args.length then
        match evalArgsF ev params args [] env with
        | .error e => .error e
        | .ok (frame, env') =>
          match ev (.List body) (frame :: env') with
          | .error e => .error e
          | .ok (v, env'') => .ok (v, env''.tail)
      else
        .error (.err ("Lambda expects " ++ toString params.length
          ++ " parameters, but was given " ++ toString args.length))
    | some _ => .error (.err ("Trying to evaluate non-function expression: " ++ name))

/-- `eval_builtin` from `src/eval.rs`.  The source matches, in order:
`[define, Symbol, value]`, `[op ∈ BINOPS, l, r]`, `[if, c, t]`,
`[if, c, t, e]`, `[lambda, List, List]`, else `None`.  Because the keyword
strings `define`, `if`, `lambda` and the operators are pairwise distinct,
the arm order below (keyword test first, structure test second) selects
exactly the same arm as the source's top-to-bottom match. -/
def BINOPS : List String := ["+", "-", "*", "/", "<", ">", "=", "!="]

def evalBuiltinF (ev : Object → Env → Except EvalErr (Object × Env))
    (list : List Object) (env : Env) : Option (Except EvalErr (Object × Env)) :=
  match list with
  | [.Symbol kw, a, b] =>
    if kw = "define" then
      match a with
      | .Symbol s => some (defineF ev s b env)
      | _ => none
    else if BINOPS.contains kw then some (binopF ev kw a b env)
    else if kw = "if" then some (evalIfF ev a b env)
    else if kw = "lambda" then
      match a, b with
      | .List paramsList, .List body =>
        match collectParams paramsList with
        | .ok params => some (.ok (.Lambda params body, env))
        | .error e => some (.error e)
      | _, _ => none
    else none
  | [.Symbol kw, c, t, e] =>
    if kw = "if" then some (evalIfElseF ev c t e env) else none
  | _ => none

/-- `eval_list` from `src/eval.rs`: builtins first; otherwise a list headed
by a symbol is a function call, a non-empty list headed by anything else
is evaluated elementwise into a `List` of the results, and the empty list
is an error. -/
def evalListF (ev : Object → Env → Except EvalErr (Object × Env))
    (list : List Object) (env : Env) : Except EvalErr (Object × Env) :=
  match evalBuiltinF ev list env with
  | some res => res
  | none =>
    match list with
    | .Symbol name :: _ => evalFunctionCallF ev name list env
    | _ :: _ =>
      match evalSeqF ev list env with
      | .ok (l, env') => .ok (.List l, env')
      | .error e => .error e
    | [] => .error (.err "Empty list")

/-- `eval_obj` from `src/eval.rs`, with fuel counting recursion depth.
Atoms evaluate to themselves, a bare `Lambda` is not evaluable, symbols
are looked up, lists dispatch through `eval_list`. -/
def evalObj : Nat → Object → Env → Except EvalErr (Object × Env)
  | 0, _, _ => .error .fuel
  | d + 1, obj, env =>
    match obj with
    | .Bool b => .ok (.Bool b, env)
    | .Float x => .ok (.Float x, env)
    | .Integer n => .ok (.Integer n, env)
    | .Lambda _ _ => .error (.err "Lambda not yet evaluable")
    | .List list => evalListF (evalObj d) list env
    | .String s => .ok (.String s, env)
    | .Symbol s => evalSymbol s env

def evalList (d : Nat) (list : List Object) (env : Env) : Except EvalErr (Object × Env) :=
  evalListF (evalObj d) list env

def evalSeq (d : Nat) (list : List Object) (env : Env) : Except EvalErr (List Object × Env) :=
  evalSeqF (evalObj d) list env

def binop (d : Nat) (operator : String) (left right : Object) (env : Env) :
    Except EvalErr (Object × Env) :=
  binopF (evalObj d) operator left right env

def evalArgs (d : Nat) (params : List String) (args : List Object)
    (frame : Frame) (env : Env) : Except EvalErr (Frame × Env) :=
  evalArgsF (evalObj d) params args frame env

def evalFunctionCall (d : Nat) (name : String) (list : List Object) (env : Env) :
    Except EvalErr (Object × Env) :=
  evalFunctionCallF (evalObj d) name list env

def evalBuiltin (d : Nat) (list : List Object) (env : Env) :
    Option (Except EvalErr (Object × Env)) :=
  evalBuiltinF (evalObj d) list env

/-- `eval` from `src/eval.rs`: parse, then evaluate; a parse error is
returned through its `Display` rendering. -/
def eval (d : Nat) (program : String) (env : Env) : Except EvalErr (Object × Env) :=
  match parse program with
  | .ok content => evalObj d content env
  | .error e => .error (.err e.display)

/- Concrete environments used by witnesses and counterexamples below. -/

/-- Environment binding `+` to a one-parameter lambda `(lambda (a) (+ a a))`,
exercising the fall-through of malformed operator forms. -/
def envPlus : Env :=
  [[("+", Object.Lambda ["a"] [.Symbol "+", .Symbol "a", .Symbol "a"])]]

/-- Environment binding `f` to the one-parameter lambda `(lambda (x) (+ x 1))`. -/
def envF : Env :=
  [[("f", Object.Lambda ["x"] [.Symbol "+", .Symbol "x", .Integer 1])]]

/- Helper lemmas (shared). -/

/-- No arm of `eval_builtin` matches a list whose head is not a symbol. -/
theorem evalBuiltinF_not_symbol (ev : Object → Env → Except EvalErr (Object × Env))
    (x : Object) (rest : List Object) (env : Env) (hx : x.isSymbol = false) :
    evalBuiltinF ev (x :: rest) env = none := by
  rcases rest with _ | ⟨a, _ | ⟨b, _ | ⟨c, _ | ⟨e, tl⟩⟩⟩⟩ <;> cases x <;>
    simp [Object.isSymbol] at hx ⊢ <;> rfl

/-- Sequential evaluation is fail-fast: if an element fails after a prefix
succeeded, the whole sequence returns that element's error. -/
theorem evalSeqF_append_error (ev : Object → Env → Except EvalErr (Object × Env))
    (pre : List Object) (x : Object) (post : List Object) (env env' : Env)
    (vs : List Object) (e : EvalErr)
    (hpre : evalSeqF ev pre env = .ok (vs, env'))
    (hx : ev x env' = .error e) :
    evalSeqF ev (pre ++ x :: post) env = .error e := by
  induction pre generalizing env vs with
  | nil =>
    simp only [evalSeqF] at hpre
    cases hpre
    simp [evalSeqF, hx]
  | cons p pre ih =>
    cases hp : ev p env with
    | error e' =>
      simp only [evalSeqF, hp] at hpre
      exact Except.noConfusion hpre
    | ok r =>
      obtain ⟨v0, env0⟩ := r
      simp only [List.cons_append, evalSeqF, hp] at hpre ⊢
      cases hrest : evalSeqF ev pre env0 with
      | error e' =>
        simp only [hrest] at hpre
        exact Except.noConfusion hpre
      | ok r' =>
        obtain ⟨vs', env1⟩ := r'
        simp only [hrest, Except.ok.injEq, Prod.mk.injEq] at hpre
        obtain ⟨-, rfl⟩ := hpre
        simp only [List.append_eq, ih env0 vs' hrest]

/-- `wrap64` always lands in the `i64` range. -/
theorem wrap64_range (n : Int) : i64min ≤ wrap64 n ∧ wrap64 n ≤ i64max := by
  unfold wrap64 i64min i64max
  constructor
  · have h := Int.emod_nonneg (n + 2 ^ 63) (b := 2 ^ 64) (by norm_num)
    omega
  · have h := Int.emod_lt_of_pos (n + 2 ^ 63) (b := 2 ^ 64) (by norm_num)
    omega

/- Claim theorems. -/

/-- C1: evaluating a list whose first element is not a Symbol evaluates
every element left-to-right against the current (threaded) environment and
returns the List of all results; if evaluating any element fails, the
whole evaluation returns that error immediately and no partial List is
returned; and the example program evaluates to
`List([Bool(true), Bool(true), Integer(31400)])`, including the
`Bool(true)` markers of the two `define` forms. -/
theorem C1 :
    (∀ (d : Nat) (x : Object) (rest : List Object) (env : Env),
      x.isSymbol = false →
      evalList d (x :: rest) env
        = (evalSeq d (x :: rest) env).map (fun p => (Object.List p.1, p.2)))
  ∧ (∀ (d : Nat) (hd : Object) (tl pre : List Object) (x : Object)
       (post : List Object) (env env' : Env) (vs : List Object) (e : EvalErr),
      hd :: tl = pre ++ x :: post →
      hd.isSymbol = false →
      evalSeq d pre env = .ok (vs, env') →
      evalObj d x env' = .error e →
      evalList d (hd :: tl) env = .error e)
  ∧ eval 32 "((define r 10)(define pi 314)(* pi (* r r)))" [[]]
      = .ok (.List [.Bool true, .Bool true, .Integer 31400],
             [[("pi", .Integer 314), ("r", .Integer 10)]]) := by
  have base : ∀ (d : Nat) (x : Object) (rest : List Object) (env : Env),
      x.isSymbol = false →
      evalList d (x :: rest) env
        = (evalSeq d (x :: rest) env).map (fun p => (Object.List p.1, p.2)) := by
    intro d x rest env hx
    unfold evalList evalListF evalSeq
    rw [evalBuiltinF_not_symbol _ _ _ _ hx]
    cases x <;> simp [Object.isSymbol] at hx ⊢ <;>
      (cases h : evalSeqF (evalObj d) _ env <;> simp [Except.map, h])
  refine ⟨base, ?_, rfl⟩
  intro d hd tl pre x post env env' vs e hsplit hhd hpre hx
  have hseq : evalSeq d (pre ++ x :: post) env = .error e :=
    evalSeqF_append_error (evalObj d) pre x post env env' vs e hpre hx
  rw [← hsplit] at hseq
  rw [base d hd tl env hhd, hseq]
  rfl

/-- Witness for C1: a two-integer list aggregates into a `List` of both
values, and a sequence whose second element is an unbound symbol fails
with that element's error and returns no list. -/
theorem C1_witness :
    evalList 3 [.Integer 1, .Integer 2] [[]] = .ok (.List [.Integer 1, .Integer 2], [[]])
  ∧ evalList 3 [.Integer 1, .Symbol "nope"] [[]] = .error (.err "Unbound symbol nope") := by
  constructor
  · rw [C1.1 3 (.Integer 1) [.Integer 2] [[]] rfl]; rfl
  · exact C1.2.1 3 (.Integer 1) [.Symbol "nope"] [.Integer 1] (.Symbol "nope") []
      [[]] [[]] [.Integer 1] (.err "Unbound symbol nope") rfl rfl rfl rfl

/-- C2: for a call form `(f a1 … an)` whose name resolves to a Lambda: an
argument count differing from the parameter count fails with the error
naming expected vs. given counts; otherwise the arguments are evaluated
left-to-right in the caller's current (threaded) environment by
`evalArgs` — which binds each parameter name to its evaluated argument in
the one fresh activation frame — the stored body list is evaluated
against that frame pushed as a child of the post-argument caller
environment, its value is returned, and the activation frame is dropped
from the resulting environment. -/
theorem C2 (d : Nat) (name : String) (args : List Object) (env : Env)
    (params : List String) (body : List Object)
    (h : Env.get env name = some (.Lambda params body)) :
    (params.length ≠ args.length →
      evalFunctionCall d name (.Symbol name :: args) env
        = .error (.err ("Lambda expects " ++ toString params.length
            ++ " parameters, but was given " ++ toString args.length)))
  ∧ (params.length = args.length →
      (∀ e, evalArgs d params args [] env = .error e →
        evalFunctionCall d name (.Symbol name :: args) env = .error e)
    ∧ (∀ frame env', evalArgs d params args [] env = .ok (frame, env') →
        evalFunctionCall d name (.Symbol name :: args) env
          = (evalObj d (.List body) (frame :: env')).map (fun p => (p.1, p.2.tail)))) := by
  simp only [evalFunctionCall, evalFunctionCallF, evalArgs, h]
  refine ⟨fun hne => ?_, fun heq => ⟨fun e he => ?_, fun frame env' hok => ?_⟩⟩
  · rw [if_neg hne]
  · rw [if_pos heq, he]
  · rw [if_pos heq, hok]
    cases hb : evalObj d (.List body) (frame :: env') with
    | error e => simp [Except.map, hb]
    | ok r => obtain ⟨v, env''⟩ := r; simp [Except.map, hb]

/-- Witness for C2 at the lambda `(lambda (x) (+ x 1))` bound to `f`: a
zero-argument call fails with the arity error, and `(f 2)` evaluates the
body `(+ x 1)` in a fresh scope binding `x` to the evaluated argument on
top of the caller's environment (yielding 3, with the activation frame
dropped afterwards). -/
theorem C2_witness :
    evalFunctionCall 5 "f" [.Symbol "f"] envF
      = .error (.err "Lambda expects 1 parameters, but was given 0")
  ∧ evalFunctionCall 5 "f" [.Symbol "f", .Integer 2] envF
      = (evalObj 5 (.List [.Symbol "+", .Symbol "x", .Integer 1])
          ([("x", .Integer 2)] :: envF)).map (fun p => (p.1, p.2.tail)) := by
  constructor
  · exact (C2 5 "f" [] envF ["x"] [.Symbol "+", .Symbol "x", .Integer 1] rfl).1 (by decide)
  · exact ((C2 5 "f" [.Integer 2] envF ["x"] [.Symbol "+", .Symbol "x", .Integer 1] rfl).2
      rfl).2 [("x", .Integer 2)] envF rfl

/-- C3: for the binary operators on numeric operands, Integer⊕Integer
yields an Integer for `+ - * /` (the value for `/` being the truncating
integer quotient, on the pairs where the division is defined — see C9 for
the excluded pairs); `*` on two Integers is overflow-checked, yielding the
in-range exact product or the error "Integer overflow" when the exact
product leaves the 64-bit signed range, never a silently wrapped value;
and any Float operand promotes the result to Float, the integer operand
being widened by `Float.ofInt` (the embedding of Rust's `as f64`). -/
theorem C3 (d : Nat) (l r : Int) (x y : Float) (env : Env) :
    (binop (d + 1) "+" (.Integer l) (.Integer r) env = .ok (.Integer (wrap64 (l + r)), env))
  ∧ (binop (d + 1) "-" (.Integer l) (.Integer r) env = .ok (.Integer (wrap64 (l - r)), env))
  ∧ (i64min ≤ l * r → l * r ≤ i64max →
      binop (d + 1) "*" (.Integer l) (.Integer r) env = .ok (.Integer (l * r), env))
  ∧ (l * r < i64min ∨ i64max < l * r →
      binop (d + 1) "*" (.Integer l) (.Integer r) env = .error (.err "Integer overflow"))
  ∧ (r ≠ 0 → ¬(l = i64min ∧ r = -1) →
      binop (d + 1) "/" (.Integer l) (.Integer r) env = .ok (.Integer (Int.tdiv l r), env))
  ∧ (∀ op, op ∈ ["+", "-", "*", "/"] →
        (∃ z, binop (d + 1) op (.Float x) (.Integer r) env = .ok (.Float z, env))
      ∧ (∃ z, binop (d + 1) op (.Integer l) (.Float y) env = .ok (.Float z, env))
      ∧ (∃ z, binop (d + 1) op (.Float x) (.Float y) env = .ok (.Float z, env))) := by
  refine ⟨rfl, rfl, fun h1 h2 => ?_, fun h => ?_, fun h1 h2 => ?_, fun op hop => ?_⟩
  · simp only [binop, binopF, evalObj, applyOp]
    rw [if_pos ⟨h1, h2⟩]
  · simp only [binop, binopF, evalObj, applyOp]
    rw [if_neg (by rcases h with h | h <;> omega)]
  · simp only [binop, binopF, evalObj, applyOp]
    rw [if_neg h1, if_neg h2]
  · simp only [List.mem_cons, List.not_mem_nil, or_false] at hop
    rcases hop with rfl | rfl | rfl | rfl <;>
      exact ⟨⟨_, rfl⟩, ⟨_, rfl⟩, ⟨_, rfl⟩⟩

/-- Witness for C3: `6 * 7` is the in-range product, `2^32 * 2^32`
overflows to the "Integer overflow" error, `(-7) / 2` truncates toward
zero, and a Float left operand under `+` gives a Float result. -/
theorem C3_witness :
    binop 1 "*" (.Integer 6) (.Integer 7) [[]] = .ok (.Integer (6 * 7), [[]])
  ∧ binop 1 "*" (.Integer (2 ^ 32)) (.Integer (2 ^ 32)) [[]] = .error (.err "Integer overflow")
  ∧ binop 1 "/" (.Integer (-7)) (.Integer 2) [[]] = .ok (.Integer (Int.tdiv (-7) 2), [[]])
  ∧ (∃ z, binop 1 "+" (.Float 1.5) (.Integer 3) [[]] = .ok (.Float z, [[]])) := by
  refine ⟨?_, ?_, ?_, ?_⟩
  · exact (C3 0 6 7 1.5 2.5 [[]]).2.2.1 (by decide) (by decide)
  · exact (C3 0 (2 ^ 32) (2 ^ 32) 1.5 2.5 [[]]).2.2.2.1 (by decide)
  · exact (C3 0 (-7) 2 1.5 2.5 [[]]).2.2.2.2.1 (by decide) (by decide)
  · exact ((C3 0 (-7) 3 1.5 2.5 [[]]).2.2.2.2.2 "+" (by simp)).1

/-- C4 counterexample: the malformed operator form `(+ 1)` (arity 2, not
3) does not fail at all in an environment where `+` is bound to a
one-parameter lambda — it is evaluated as an ordinary function call and
succeeds, so malformed special forms do not universally produce an error
naming the violation. -/
theorem C4_counterexample :
    evalList 5 [.Symbol "+", .Integer 1] envPlus = .ok (.Integer 2, envPlus) := rfl

/-- C4 (amended): a list headed by the Symbol `define` whose length is not
3 or whose second element is not a Symbol, and a list headed by an
operator symbol whose length is not 3, are not treated as special forms
at all: `eval_builtin` declines them and they fall through to generic
function-call evaluation of the head symbol.  In an environment where the
head symbol is unbound this yields `Unbound symbol: <head>` — an error
that names neither the expected arity nor the offending element — and if
the head symbol is bound the form is evaluated as an ordinary call (which
can even succeed, per the counterexample). -/
theorem C4_amended :
    (∀ (d : Nat) (env : Env) (name : String) (rest : List Object),
      (name = "define" ∨ name ∈ BINOPS) → rest.length ≠ 2 →
      evalList d (.Symbol name :: rest) env
        = evalFunctionCall d name (.Symbol name :: rest) env)
  ∧ (∀ (d : Nat) (a b : Object) (env : Env), a.isSymbol = false →
      evalList d [.Symbol "define", a, b] env
        = evalFunctionCall d "define" [.Symbol "define", a, b] env)
  ∧ (∀ (d : Nat) (name : String) (rest : List Object),
      evalFunctionCall d name (.Symbol name :: rest) [[]]
        = .error (.err ("Unbound symbol: " ++ name))) := by
  refine ⟨?_, ?_, ?_⟩
  · intro d env name rest hname hlen
    have hkw : name ≠ "if" ∧ name ≠ "lambda" ∧
        (name = "define" ∨ BINOPS.contains name) := by
      rcases hname with rfl | hm
      · exact ⟨by decide, by decide, Or.inl rfl⟩
      · simp only [BINOPS, List.mem_cons, List.not_mem_nil, or_false] at hm
        rcases hm with rfl | rfl | rfl | rfl | rfl | rfl | rfl | rfl <;>
          exact ⟨by decide, by decide, Or.inr (by decide)⟩
    rcases rest with _ | ⟨a, _ | ⟨b, _ | ⟨c, _ | ⟨e, tl⟩⟩⟩⟩
    · rfl
    · rfl
    · exact absurd rfl hlen
    · simp only [evalList, evalListF, evalBuiltinF, if_neg hkw.1, evalFunctionCall]
    · rfl
  · intro d a b env ha
    cases a <;> simp [Object.isSymbol] at ha ⊢ <;>
      simp [evalList, evalListF, evalBuiltinF, evalFunctionCall]
  · intro d name rest
    rfl

/-- Witness for C4 (amended): `(define x)` (arity 2) in the empty global
environment falls through to a call of the unbound symbol `define`. -/
theorem C4_amended_witness :
    evalList 3 [.Symbol "define", .Symbol "x"] [[]]
      = .error (.err "Unbound symbol: define") := by
  rw [C4_amended.1 3 [[]] "define" [.Symbol "x"] (Or.inl rfl) (by decide)]
  exact C4_amended.2.2 3 "define" [.Symbol "x"]

/- Rendering lemmas for C5. -/

theorem paramsStr_eq_spaceJoin (ps : List String) : paramsStr ps = spaceJoin ps := by
  induction ps with
  | nil => rfl
  | cons p ps ih => simp [paramsStr, spaceJoin, ih, String.append_assoc]

theorem bodyStr_eq_spaceJoin (l : List Object) : bodyStr l = spaceJoin (l.map fmt) := by
  induction l with
  | nil => rfl
  | cons x xs ih => simp [bodyStr, spaceJoin, ih, String.append_assoc]

theorem elemsStr_eq_spaceSep (x : Object) (xs : List Object) :
    fmt x ++ elemsStr xs false = spaceSep ((x :: xs).map fmt) := by
  induction xs generalizing x with
  | nil => simp [elemsStr, spaceSep]
  | cons y ys ih =>
    simp only [List.map_cons] at ih ⊢
    show fmt x ++ (" " ++ fmt y ++ elemsStr ys false) = spaceSep (fmt x :: fmt y :: ys.map fmt)
    have hss : spaceSep (fmt x :: fmt y :: ys.map fmt)
        = fmt x ++ " " ++ spaceSep (fmt y :: ys.map fmt) := rfl
    rw [hss, ← ih y]
    simp [String.append_assoc]

/-- C5 counterexample: the rendering of `List([Integer(1)])` is `"(1"` —
the opening parenthesis is written but no closing one — and the rendering
of a Lambda is the `λ`-form `"λ x . x "`, not
`lambda (<param>, <param>, …)`. -/
theorem C5_counterexample :
    fmt (.List [.Integer 1]) = "(1"
  ∧ fmt (.List [.Integer 1]) ≠ "(1)"
  ∧ fmt (.Lambda ["x"] [.Symbol "x"]) = "λ x . x " := by
  refine ⟨rfl, ?_, rfl⟩
  intro h
  have : "(1" = "(1)" := by rw [← h]; rfl
  simp at this

/-- C5 (amended): Integer/Float/Bool render as their literal forms, String
renders quoted, Symbol renders bare; but a Lambda renders as
`λ <param> <param> … . <body-elem> <body-elem> …` (each name and body
element followed by a space), and a List renders as the space-separated
renderings of its elements preceded by an opening parenthesis with *no*
closing parenthesis. -/
theorem C5_amended :
    (∀ n, fmt (.Integer n) = toString n)
  ∧ (∀ x, fmt (.Float x) = toString x)
  ∧ (∀ b, fmt (.Bool b) = toString b)
  ∧ (∀ s, fmt (.String s) = "\"" ++ s ++ "\"")
  ∧ (∀ s, fmt (.Symbol s) = s)
  ∧ (∀ ps body, fmt (.Lambda ps body)
      = "λ " ++ spaceJoin ps ++ ". " ++ spaceJoin (body.map fmt))
  ∧ (∀ l, fmt (.List l) = "(" ++ spaceSep (l.map fmt)) := by
  refine ⟨fun _ => rfl, fun _ => rfl, fun _ => rfl, fun _ => rfl, fun _ => rfl, ?_, ?_⟩
  · intro ps body
    rw [fmt, paramsStr_eq_spaceJoin, bodyStr_eq_spaceJoin]
  · intro l
    cases l with
    | nil => rfl
    | cons x xs =>
      rw [fmt]
      show "(" ++ (fmt x ++ elemsStr xs false) = _
      rw [elemsStr_eq_spaceSep]

/-- C6: the tokenizer does NOT implement the claimed line/column tracking.
A newline between tokens is consumed by the whitespace loop as an ordinary
whitespace character — the column counter increments and the line counter
does not change (the `c == '\n'` reset branch of the source sits under
`!c.is_whitespace()` and is unreachable).  Consequently the LexError for
the input `"\n\"a\"b"` reports `(line 1, column 5)` where the claimed
behaviour would report line 2 with the column reset at the newline. -/
theorem C6 :
    (∀ (cs : List Char) (line col : Nat),
      skipWs ('\n' :: cs) line col = skipWs cs line (col + 1))
  ∧ tokensN 10 (tokenize "\n\"a\"b")
      = [.LexerError "Unexpected character b (line 1, column 5)"] := by
  exact ⟨fun cs line col => rfl, rfl⟩

/- Terminal-state lemmas for C7. -/

/-- Token classification never produces a lexer-error token. -/
theorem parseToken_ne_lexerError (tok m : String) :
    parseToken tok ≠ some (.LexerError m) := by
  intro h
  simp only [parseToken] at h
  split_ifs at h <;> (repeat' split at h) <;> simp_all

/-- After `readStr` returns a lexer-error token, the stream state has its
error flag set or its input exhausted. -/
theorem readStr_lexerError_state (cs : List Char) (line col : Nat) (tok m : String)
    (s' : LexState) (h : readStr cs line col tok = (some (.LexerError m), s')) :
    s'.is_error = true ∨ s'.chars = [] := by
  induction cs generalizing line col tok with
  | nil =>
    simp only [readStr] at h
    cases h
    exact Or.inr rfl
  | cons c rest ih =>
    simp only [readStr] at h
    (repeat' split at h) <;>
      first
      | (cases h; exact Or.inl rfl)
      | cases h
      | exact ih _ _ _ h

/-- After `readTok` returns a lexer-error token, the stream state has its
error flag set or its input exhausted. -/
theorem readTok_lexerError_state (cs : List Char) (line col : Nat) (tok m : String)
    (s' : LexState) (h : readTok cs line col tok = (some (.LexerError m), s')) :
    s'.is_error = true ∨ s'.chars = [] := by
  induction cs generalizing line col tok with
  | nil =>
    simp only [readTok] at h
    exact absurd (congrArg Prod.fst h) (parseToken_ne_lexerError tok m)
  | cons c rest ih =>
    simp only [readTok] at h
    (repeat' split at h) <;>
      first
      | (cases h; exact Or.inl rfl)
      | exact absurd (congrArg Prod.fst h) (parseToken_ne_lexerError _ m)
      | exact ih _ _ _ h
      | exact readStr_lexerError_state _ _ _ _ _ _ h

/-- A state with the error flag set, or with no input left, absorbs: the
next call yields no token and leaves the state unchanged. -/
theorem nextTok_absorb (s : LexState) (h : s.is_error = true ∨ s.chars = []) :
    nextTok s = (none, s) := by
  obtain ⟨cs, err, col, line⟩ := s
  cases err with
  | true => rfl
  | false =>
    rcases h with h | h
    · exact absurd h (by simp)
    · simp only at h
      subst h
      rfl

/-- C7: once the token stream has produced a LexError token it yields no
further tokens — every subsequent call returns `none` — and tokenizing a
symbol immediately followed by a string literal yields exactly one
LexError token and nothing after it. -/
theorem C7 :
    (∀ (s : LexState) (m : String) (s' : LexState),
      nextTok s = (some (.LexerError m), s') →
      ∀ k, iterateNext k s' = (none, s'))
  ∧ tokensN 20 (tokenize "keyword\"rest\"")
      = [.LexerError "Unexpected character \" (line 1, column 8)"] := by
  refine ⟨?_, rfl⟩
  intro s m s' hnext k
  have habs : s'.is_error = true ∨ s'.chars = [] := by
    unfold nextTok at hnext
    split_ifs at hnext with herr
    · simp at hnext
    · obtain ⟨cs, line, col⟩ := skipWs s.chars s.line_count s.c_count
      exact readTok_lexerError_state _ _ _ _ _ _ hnext
  induction k with
  | zero => exact nextTok_absorb s' habs
  | succ k ih =>
    show iterateNext k (nextTok s').2 = (none, s')
    rw [nextTok_absorb s' habs]
    exact ih

/-- Witness for C7: concretely, after the stream for `"a\"b"` produces its
LexError token, the fourth following call (and, by the theorem, every
other) still returns `none`. -/
theorem C7_witness :
    iterateNext 3 ⟨['"', 'b'], true, 2, 1⟩ = (none, ⟨['"', 'b'], true, 2, 1⟩) :=
  C7.1 ⟨['a', '"', 'b'], false, 1, 1⟩ "Unexpected character \" (line 1, column 2)"
    ⟨['"', 'b'], true, 2, 1⟩ rfl 3

/-- C8: the top-level parse requires an opening paren as its very first
token — for every input whose first token is anything else (including no
token at all), `parse` returns the parse error naming the token found —
and parsing `"(1)"` yields `List([Integer(1)])`. -/
theorem C8 :
    (∀ (str : String) (t : Option Token) (s' : LexState),
      nextTok (tokenize str) = (t, s') → t ≠ some .LParen →
      parse str = .error ⟨"Excepted Left Paren, found " ++ optionTokenDebug t⟩)
  ∧ parse "(1)" = .ok (.List [.Integer 1]) := by
  refine ⟨?_, rfl⟩
  intro str t s' hnext hne
  unfold parse
  rw [hnext]
  rcases t with _ | tok
  · rfl
  · cases tok <;> first | exact absurd rfl hne | rfl

/-- Witness for C8: the input `"1"`, whose first token is `Integer(1)`,
parses to the error naming that token. -/
theorem C8_witness :
    parse "1" = .error ⟨"Excepted Left Paren, found Some(Integer(1))"⟩ :=
  C8.1 "1" (some (.Integer 1)) ⟨[], false, 2, 1⟩ rfl (by simp)

/-- C9: integer division is not guarded.  Whenever the two operands of
`(/ <l> <r>)` evaluate to Integers, a zero right operand — or the pair
`(i64::MIN, -1)` — makes the interpreter panic (the `panic` outcome, a
process abort, not a returned `Err`), and on every remaining Integer pair
the division returns the truncated quotient, so the truncating-division
contract is total only on those remaining pairs. -/
theorem C9 (d : Nat) (le re : Object) (env env1 env2 : Env) (l r : Int)
    (h1 : evalObj d le env = .ok (.Integer l, env1))
    (h2 : evalObj d re env1 = .ok (.Integer r, env2)) :
    (r = 0 → binop d "/" le re env = .error (.panic "attempt to divide by zero"))
  ∧ (l = i64min → r = -1 →
      binop d "/" le re env = .error (.panic "attempt to divide with overflow"))
  ∧ (r ≠ 0 → ¬(l = i64min ∧ r = -1) →
      binop d "/" le re env = .ok (.Integer (Int.tdiv l r), env2)) := by
  simp only [binop, binopF, h1, h2, applyOp]
  refine ⟨fun hz => ?_, fun hmin hneg => ?_, fun hz hp => ?_⟩
  · rw [if_pos hz]
  · rw [if_neg (by rw [hneg]; decide), if_pos ⟨hmin, hneg⟩]
  · rw [if_neg hz, if_neg hp]

/-- Witness for C9: `(/ 7 0)` panics with "attempt to divide by zero";
`(/ i64::MIN -1)` panics with "attempt to divide with overflow"; and
`(/ -7 2)` returns the truncated quotient `-3`. -/
theorem C9_witness :
    binop 1 "/" (.Integer 7) (.Integer 0) [[]]
      = .error (.panic "attempt to divide by zero")
  ∧ binop 1 "/" (.Integer (-(2 ^ 63))) (.Integer (-1)) [[]]
      = .error (.panic "attempt to divide with overflow")
  ∧ binop 1 "/" (.Integer (-7)) (.Integer 2) [[]] = .ok (.Integer (Int.tdiv (-7) 2), [[]]) := by
  refine ⟨?_, ?_, ?_⟩
  · exact (C9 1 (.Integer 7) (.Integer 0) [[]] [[]] [[]] 7 0 rfl rfl).1 rfl
  · exact (C9 1 (.Integer (-(2 ^ 63))) (.Integer (-1)) [[]] [[]] [[]] (-(2 ^ 63)) (-1)
      rfl rfl).2.1 (by decide) rfl
  · exact (C9 1 (.Integer (-7)) (.Integer 2) [[]] [[]] [[]] (-7) 2 rfl rfl).2.2
      (by decide) (by decide)

/-- C10: unlike `*`, the `+` and `-` operators on two Integers are
unchecked.  When the exact sum or difference lies outside the 64-bit
signed range, no "Integer overflow" error is produced: the operation
succeeds with the value wrapped modulo 2^64 (the release-build behaviour;
a debug build would panic instead), which differs from the exact result. -/
theorem C10 (d : Nat) (l r : Int) (env : Env) :
    ((l + r < i64min ∨ i64max < l + r) →
      binop (d + 1) "+" (.Integer l) (.Integer r) env = .ok (.Integer (wrap64 (l + r)), env)
      ∧ wrap64 (l + r) ≠ l + r)
  ∧ ((l - r < i64min ∨ i64max < l - r) →
      binop (d + 1) "-" (.Integer l) (.Integer r) env = .ok (.Integer (wrap64 (l - r)), env)
      ∧ wrap64 (l - r) ≠ l - r) := by
  constructor
  · intro h
    refine ⟨rfl, fun heq => ?_⟩
    have := wrap64_range (l + r)
    rw [heq] at this
    rcases h with h | h <;> omega
  · intro h
    refine ⟨rfl, fun heq => ?_⟩
    have := wrap64_range (l - r)
    rw [heq] at this
    rcases h with h | h <;> omega

/-- Witness for C10: `2^62 + 2^62 = 2^63` exceeds `i64max`, yet `+`
succeeds with the wrapped value (which is `-2^63`, not `2^63`), and
`i64min - 1` wraps under `-` as well. -/
theorem C10_witness :
    (binop 1 "+" (.Integer (2 ^ 62)) (.Integer (2 ^ 62)) [[]]
        = .ok (.Integer (wrap64 (2 ^ 62 + 2 ^ 62)), [[]])
      ∧ wrap64 (2 ^ 62 + 2 ^ 62) ≠ 2 ^ 62 + 2 ^ 62)
  ∧ (binop 1 "-" (.Integer (-(2 ^ 63))) (.Integer 1) [[]]
        = .ok (.Integer (wrap64 (-(2 ^ 63) - 1)), [[]])
      ∧ wrap64 (-(2 ^ 63) - 1) ≠ -(2 ^ 63) - 1) :=
  ⟨(C10 0 (2 ^ 62) (2 ^ 62) [[]]).1 (Or.inr (by decide)),
   (C10 0 (-(2 ^ 63)) 1 [[]]).2 (Or.inl (by decide))⟩

end RScheme
